import Mathlib

/-!
Shallow embedding of the capsem Gemini proxy pipeline
(`capsem_proxy/api/gemini.py`, `capsem_proxy/api/utils.py`,
`capsem_proxy/capsem_integration.py`, `capsem/policies/debug_policy.py`)
together with the parts of the `capsem` core (`capsem.models`,
`capsem.tools`, `capsem.manager`) that are referenced by that code but are
not part of the proxy sources; those are modelled from the specification.
-/

namespace Capsem

/-! ## Generic string helpers (Python `in` / `.lower()` semantics) -/

/-- `startsWithChars hay needle` : `needle` is a leading segment of `hay`. -/
def startsWithChars : List Char → List Char → Bool
  | _, [] => true
  | [], _ :: _ => false
  | a :: as, b :: bs => a == b && startsWithChars as bs

/-- `containsChars needle hay` : `needle` occurs as a contiguous segment of
`hay` (Python `needle in hay` on strings). -/
def containsChars (needle : List Char) : List Char → Bool
  | [] => startsWithChars [] needle
  | hay@(_ :: as) => startsWithChars hay needle || containsChars needle as

/-- Python `needle in hay` for strings (no case folding). -/
def hasSubStr (hay needle : String) : Bool :=
  containsChars needle.toList hay.toList

/-- ASCII-wise lowering of a string, modelling Python `str.lower()` on the
ASCII strings the pipeline compares against. -/
def lowerStr (s : String) : String :=
  ⟨s.toList.map Char.toLower⟩

/-- Python `x if x else d` / `x or d` on strings: empty is falsy. -/
def orDefault (s d : String) : String :=
  if s = "" then d else s

/-! ## Canonical decision model

Modelled from the spec: `capsem.models` (`Verdict`, `Reason`, `Decision`,
`DEFAULT_SAFE_DECISION`, `Agent`) and `capsem.tools` (`Tool`) are imported
by the proxy sources but their definitions are not under `src/`; the spec
describes them in §3 (Data Model) and §4.1 (Policy Contract). -/

inductive Verdict where
  | ALLOW
  | CONFIRM
  | BLOCK
deriving DecidableEq

inductive Reason where
  | SAFE
  | POLICY_VIOLATION
deriving DecidableEq

structure Decision where
  verdict : Verdict
  reason : Reason
  details : String
deriving DecidableEq

/-- Modelled from the spec: the canonical no-opinion result, `ALLOW` with
reason `SAFE` (§4.1); its `details` text is not fixed by the spec. -/
def DEFAULT_SAFE_DECISION : Decision :=
  { verdict := .ALLOW, reason := .SAFE, details := "" }

/-- Tool arguments / parameters: a Python dict modelled as an association
list whose values are kept in their already-stringified form. -/
def Args := List (String × String)
deriving DecidableEq

structure Tool where
  name : String
  description : String
  parameters : Args
deriving DecidableEq

structure Agent where
  name : String
  instructions : String
  tools : List Tool
deriving DecidableEq

/-- Python `str(d)` on a dict whose values are kept pre-rendered. -/
def pyStrDict (d : Args) : String :=
  "\x7b" ++ String.intercalate ", "
    (d.map fun kv => "\x27" ++ kv.1 ++ "\x27: " ++ kv.2) ++ "\x7d"

/-! ## DebugPolicy (`capsem/policies/debug_policy.py`, in `src/`) -/

def DEBUG_TRIGGER : String := "capsem_block"

/-- Python `"capsem_block" in s.lower()`. -/
def containsTrigger (s : String) : Bool :=
  hasSubStr (lowerStr s) DEBUG_TRIGGER

/-- A policy: the four interception points the proxy code exercises
(the other four hooks of the eight-point contract return the safe default
in `DebugPolicy` and are never called by the proxy sources). -/
structure Policy where
  name : String
  on_model_call : String → String → String → Decision
  on_model_response : String → String → Decision
  on_tool_call : Tool → Args → Decision
  on_tool_response : Tool → Args → Decision

/-- Python `", ".join(f"{k}={v}" for k, v in args.items())`. -/
def argsJoin (args : Args) : String :=
  String.intercalate ", " (args.map fun kv => kv.1 ++ "=" ++ kv.2)

def DebugPolicy : Policy where
  name := "Debug"
  on_model_call := fun _model _sys prompt =>
    if containsTrigger prompt then
      { verdict := .BLOCK, reason := .POLICY_VIOLATION,
        details := "Detected \x27capsem_block\x27 in prompt" }
    else DEFAULT_SAFE_DECISION
  on_model_response := fun response _thoughts =>
    if containsTrigger response then
      { verdict := .BLOCK, reason := .POLICY_VIOLATION,
        details := "Detected \x27capsem_block\x27 in model response" }
    else DEFAULT_SAFE_DECISION
  on_tool_call := fun tool args =>
    if containsTrigger tool.name then
      { verdict := .BLOCK, reason := .POLICY_VIOLATION,
        details := "Detected \x27capsem_block\x27 in tool name" }
    else if containsTrigger (argsJoin args) then
      { verdict := .BLOCK, reason := .POLICY_VIOLATION,
        details := "Detected \x27capsem_block\x27 in tool arguments" }
    else DEFAULT_SAFE_DECISION
  on_tool_response := fun _tool response =>
    if containsTrigger (pyStrDict response) then
      { verdict := .BLOCK, reason := .POLICY_VIOLATION,
        details := "Detected \x27capsem_block\x27 in tool response" }
    else DEFAULT_SAFE_DECISION

/-! ## Security manager

Modelled from the spec: `capsem.manager.SecurityManager` is not under
`src/`; §4.2 specifies an ordered, immutable policy list whose per-gate
results are aggregated with precedence `BLOCK` > `CONFIRM` > `ALLOW`,
the earliest policy attaining the highest-precedence verdict supplying
the aggregated `reason`/`details`. -/

structure SecurityManager where
  policies : List Policy

def verdictRank : Verdict → Nat
  | .ALLOW => 0
  | .CONFIRM => 1
  | .BLOCK => 2

/-- Modelled from the spec: worst-verdict-wins aggregation, ties broken by
registration order (earliest wins); an empty policy list yields the safe
default. -/
def aggregate : List Decision → Decision
  | [] => DEFAULT_SAFE_DECISION
  | d :: ds =>
      ds.foldl (fun acc x =>
        if verdictRank acc.verdict < verdictRank x.verdict then x else acc) d

def SecurityManager.on_model_call (sm : SecurityManager)
    (model sys prompt : String) : Decision :=
  aggregate (sm.policies.map fun p => p.on_model_call model sys prompt)

def SecurityManager.on_model_response (sm : SecurityManager)
    (response thoughts : String) : Decision :=
  aggregate (sm.policies.map fun p => p.on_model_response response thoughts)

def SecurityManager.on_tool_call (sm : SecurityManager)
    (tool : Tool) (args : Args) : Decision :=
  aggregate (sm.policies.map fun p => p.on_tool_call tool args)

def SecurityManager.on_tool_response (sm : SecurityManager)
    (tool : Tool) (response : Args) : Decision :=
  aggregate (sm.policies.map fun p => p.on_tool_response tool response)

/-- The manager holding only the default `DebugPolicy`
(`capsem_integration.py` fallback path). -/
def defaultManager : SecurityManager := ⟨[DebugPolicy]⟩

/-! ## Wire model (Gemini generateContent request/response shapes)

`google.genai.types.Content` / `Part` / `GenerateContentResponse` as used by
`gemini.py`: optional fields are `Option`s, Python truthiness of a string is
`≠ ""`, and a dict-shaped JSON body supplies `[]` defaults for absent lists. -/

structure FunctionCall where
  name : String
  args : Option Args
deriving DecidableEq

structure FunctionResponse where
  name : String
  response : Option Args
deriving DecidableEq

structure Part where
  text : Option String
  thought : Bool
  function_call : Option FunctionCall
  function_response : Option FunctionResponse
deriving DecidableEq

/-- One entry of the `contents` list of the request. `valid` records whether
pydantic validation `Content(**content)` succeeds on the raw dict (the
streaming endpoint reads the raw dict and never validates). `role` is
`none` when the raw dict has no `"role"` key. -/
structure RawContent where
  valid : Bool
  role : Option String
  parts : List Part
deriving DecidableEq

structure FuncDecl where
  name : Option String
  description : Option String
  parameters : Option Args
deriving DecidableEq

/-- One entry of the `tools` list of the request: an optional OpenAI-style
`type`/`function` pair (read by `create_agent`) and an optional
Gemini-style `functionDeclarations` list (read by the streaming
endpoint); `none` models an absent key. -/
structure ToolDef where
  type : Option String
  func : Option FuncDecl
  functionDeclarations : Option (List FuncDecl)
deriving DecidableEq

structure GeminiRequest where
  contents : List RawContent
  tools : List ToolDef
deriving DecidableEq

structure RespContent where
  parts : List Part
deriving DecidableEq

structure Candidate where
  content : Option RespContent
deriving DecidableEq

/-- Provider response; an absent `candidates` field is identified with the
empty list (both are falsy in `if not response.candidates`). -/
structure GenResponse where
  candidates : List Candidate
deriving DecidableEq

/-! ## `create_agent` (`capsem_integration.py`) -/

/-- Python default `{"type": "object", "properties": {}}`. -/
def defaultParameters : Args := [("type", "object"), ("properties", "")]

/-- `create_agent(user_id, tools)` from `capsem_integration.py`: converts
OpenAI-format tool definitions (entries with `type == "function"`) into
capsem `Tool`s, substituting a placeholder for missing/empty descriptions. -/
def create_agent (user_id : String) (tools : List ToolDef) : Agent :=
  let capsem_tools := tools.foldr (fun td acc =>
    if td.type = some "function" then
      let f := td.func.getD ⟨none, none, none⟩
      { name := f.name.getD "unknown"
        description := orDefault (f.description.getD "") "No description provided"
        parameters := f.parameters.getD defaultParameters } :: acc
    else acc) []
  { name := "proxy-user-" ++ user_id
    instructions := "OpenAI API proxy user"
    tools := capsem_tools }

/-! ## `_decide` / `utils.decide` -/

/-- `_decide` (`gemini.py`) and `decide` (`utils.py`): on a `BLOCK`
verdict, raise `HTTPException(403, "Request blocked by security policy: "
++ details)`; otherwise pass. `some (status, detail)` models the raised
exception. -/
def decideStep (decision : Decision) : Option (Nat × String) :=
  if decision.verdict = .BLOCK then
    some (403, "Request blocked by security policy: " ++ decision.details)
  else none

/-! ## Non-streaming handler `generate_content` (`gemini.py`) -/

/-- Trace of the policy-gate invocations a handler run performs, in
program order, each with the aggregated decision it produced. -/
inductive GateEvent where
  | toolResponse (tool : Tool) (response : Args) (d : Decision)
  | modelCall (model sys prompt : String) (d : Decision)
  | toolCall (tool : Tool) (args : Args) (d : Decision)
  | modelResponse (response thoughts : String) (d : Decision)
deriving DecidableEq

inductive HandlerResult where
  | ok (resp : GenResponse)
  | httpError (status : Nat) (detail : String)
deriving DecidableEq

structure RunLog where
  events : List GateEvent
  upstreamCalled : Bool
  result : HandlerResult
deriving DecidableEq

/-- The inner `for part in content.parts` text accumulation of
`generate_content`: visible (non-thought) texts and thought texts, in
order; a part contributes only when `part.text` is truthy. -/
def collectTexts : List Part → List String × List String
  | [] => ([], [])
  | p :: ps =>
      let rest := collectTexts ps
      match p.text with
      | some s =>
          if s = "" then rest
          else if p.thought then (rest.1, s :: rest.2)
          else (s :: rest.1, rest.2)
      | none => rest

structure InboundAcc where
  prompts : List String
  thoughts : List String
  events : List GateEvent
deriving DecidableEq

inductive InboundOut where
  | blocked (events : List GateEvent) (detail : String)
  | done (acc : InboundAcc)
deriving DecidableEq

/-- The `for content in contents` loop of `generate_content`: invalid
entries and entries with no parts are skipped; texts are accumulated;
after the inner parts loop the leftover loop variable — the *last* part —
is tested for `function_response`, gating `on_tool_response` and raising
403 on `BLOCK`. -/
def inboundLoop (sm : SecurityManager) : List RawContent → InboundOut
  | [] => .done ⟨[], [], []⟩
  | c :: cs =>
      if c.valid = false then inboundLoop sm cs
      else if c.parts = [] then inboundLoop sm cs
      else
        let texts := collectTexts c.parts
        match (c.parts.getLast?).bind (·.function_response) with
        | some fr =>
            let tool : Tool :=
              ⟨fr.name, "Function response from model", []⟩
            let payload := fr.response.getD []
            let d := sm.on_tool_response tool payload
            let ev := GateEvent.toolResponse tool payload d
            if d.verdict = .BLOCK then
              .blocked [ev]
                ("Request blocked by security policy: " ++ d.details)
            else
              match inboundLoop sm cs with
              | .blocked evs det => .blocked (ev :: evs) det
              | .done acc =>
                  .done ⟨texts.1 ++ acc.prompts, texts.2 ++ acc.thoughts,
                         ev :: acc.events⟩
        | none =>
            match inboundLoop sm cs with
            | .blocked evs det => .blocked evs det
            | .done acc =>
                .done ⟨texts.1 ++ acc.prompts, texts.2 ++ acc.thoughts,
                       acc.events⟩

inductive RespOut where
  | blocked (events : List GateEvent) (detail : String)
  | done (vs ts : List String) (events : List GateEvent)
deriving DecidableEq

/-- Prepend the text of one response part (Python appends the text of a part
before examining `function_call`; text order is preserved). -/
def addText (p : Part) : RespOut → RespOut
  | .blocked evs det => .blocked evs det
  | .done vs ts evs =>
      match p.text with
      | some s =>
          if s = "" then .done vs ts evs
          else if p.thought then .done vs (s :: ts) evs
          else .done (s :: vs) ts evs
      | none => .done vs ts evs

/-- The inner `for part in candidate.content.parts` loop of the response
phase: accumulate text/thoughts and gate `on_tool_call` for every part
carrying a `function_call`, raising 403 on `BLOCK`. -/
def respPartsLoop (sm : SecurityManager) : List Part → RespOut
  | [] => .done [] [] []
  | p :: ps =>
      match p.function_call with
      | some fc =>
          let args := fc.args.getD []
          let tool : Tool := ⟨fc.name, "Function call from model", args⟩
          let d := sm.on_tool_call tool args
          let ev := GateEvent.toolCall tool args d
          if d.verdict = .BLOCK then
            .blocked [ev] ("Request blocked by security policy: " ++ d.details)
          else
            match respPartsLoop sm ps with
            | .blocked evs det => .blocked (ev :: evs) det
            | .done vs ts evs => addText p (.done vs ts (ev :: evs))
      | none => addText p (respPartsLoop sm ps)

/-- The `for candidate in response.candidates` loop: candidates with no
content or no parts are skipped. -/
def respLoop (sm : SecurityManager) : List Candidate → RespOut
  | [] => .done [] [] []
  | c :: cs =>
      match c.content with
      | none => respLoop sm cs
      | some ct =>
          if ct.parts = [] then respLoop sm cs
          else
            match respPartsLoop sm ct.parts with
            | .blocked evs det => .blocked evs det
            | .done vs ts evs =>
                match respLoop sm cs with
                | .blocked evs2 det => .blocked (evs ++ evs2) det
                | .done vs2 ts2 evs2 =>
                    .done (vs ++ vs2) (ts ++ ts2) (evs ++ evs2)

/-- The `generate_content` endpoint handler (`gemini.py`), with the
reply of the upstream provider supplied as the oracle `oracle`. The returned
`RunLog` records the gate trace, whether the upstream provider was
invoked, and the HTTP outcome. -/
def generate_content (sm : SecurityManager) (user_id model : String)
    (req : GeminiRequest) (oracle : GenResponse) : RunLog :=
  let _agent := create_agent user_id req.tools
  match inboundLoop sm req.contents with
  | .blocked evs det => ⟨evs, false, .httpError 403 det⟩
  | .done acc =>
      let prompt := String.intercalate "\n" acc.prompts
      let d := sm.on_model_call model "" prompt
      let ev := GateEvent.modelCall model "" prompt d
      if d.verdict = .BLOCK then
        ⟨acc.events ++ [ev], false,
         .httpError 403 ("Request blocked by security policy: " ++ d.details)⟩
      else
        if oracle.candidates = [] then
          ⟨acc.events ++ [ev], true, .ok oracle⟩
        else
          match respLoop sm oracle.candidates with
          | .blocked evs2 det =>
              ⟨acc.events ++ ev :: evs2, true, .httpError 403 det⟩
          | .done vs ts evs2 =>
              let rtext := String.intercalate "\n" vs
              let rth := String.intercalate "\n" ts
              let rd := sm.on_model_response rtext rth
              let rev := GateEvent.modelResponse rtext rth rd
              if rd.verdict = .BLOCK then
                ⟨acc.events ++ ev :: evs2 ++ [rev], true,
                 .httpError 403
                   ("Request blocked by security policy: " ++ rd.details)⟩
              else
                ⟨acc.events ++ ev :: evs2 ++ [rev], true, .ok oracle⟩

/-! ## Streaming handler `stream_generate_content` (`gemini.py`) -/

inductive StreamResult where
  | httpError (status : Nat) (detail : String)
  | streaming
deriving DecidableEq

structure StreamLog where
  events : List GateEvent
  streamOpened : Bool
  result : StreamResult
deriving DecidableEq

/-- The own prompt assembly of the streaming endpoint: every part with a
`"text"` key (thought or not) contributes `role ++ ": " ++ text`, the
role defaulting to `"user"`; raw entries are never validated. -/
def streamPromptParts : List RawContent → List String
  | [] => []
  | c :: cs =>
      (c.parts.filterMap fun p =>
        p.text.map fun t => c.role.getD "user" ++ ": " ++ t)
        ++ streamPromptParts cs

/-- The declared function declarations of a tools list, in order
(`functionDeclarations` keys only, as read by the streaming endpoint). -/
def declsOf (tools : List ToolDef) : List FuncDecl :=
  tools.foldr (fun td acc => td.functionDeclarations.getD [] ++ acc) []

/-- The `Tool` the streaming endpoint builds from one declaration. -/
def declTool (fd : FuncDecl) : Tool :=
  { name := fd.name.getD "unknown"
    description := orDefault (fd.description.getD "") "No description provided"
    parameters := fd.parameters.getD defaultParameters }

inductive StreamToolOut where
  | blocked (events : List GateEvent) (detail : String)
  | done (events : List GateEvent)
deriving DecidableEq

/-- The streaming pre-flight `on_tool_call` loop over declared function
declarations (args are not available, `{}` is passed); a `BLOCK` raises
403 with detail `"Tool blocked by security policy: ..."`. -/
def streamDeclLoop (sm : SecurityManager) : List FuncDecl → StreamToolOut
  | [] => .done []
  | fd :: fds =>
      let tool := declTool fd
      let d := sm.on_tool_call tool []
      let ev := GateEvent.toolCall tool [] d
      if d.verdict = .BLOCK then
        .blocked [ev] ("Tool blocked by security policy: " ++ d.details)
      else
        match streamDeclLoop sm fds with
        | .blocked evs det => .blocked (ev :: evs) det
        | .done evs => .done (ev :: evs)

/-- The `stream_generate_content` endpoint handler (`gemini.py`):
role-prefixed prompt assembly, `on_model_call` gate, per-declared-tool
`on_tool_call` pre-checks, then the upstream stream is opened and chunks
are passed through with no further gating. -/
def stream_generate_content (sm : SecurityManager) (user_id model : String)
    (req : GeminiRequest) : StreamLog :=
  let _agent := create_agent user_id req.tools
  let prompt := String.intercalate "\n" (streamPromptParts req.contents)
  let d := sm.on_model_call model "" prompt
  let ev := GateEvent.modelCall model "" prompt d
  if d.verdict = .BLOCK then
    ⟨[ev], false,
     .httpError 403 ("Request blocked by security policy: " ++ d.details)⟩
  else
    match streamDeclLoop sm (declsOf req.tools) with
    | .blocked evs det => ⟨ev :: evs, false, .httpError 403 det⟩
    | .done evs => ⟨ev :: evs, true, .streaming⟩

/-! ## Module init of `capsem_integration.py` (policy loading) -/

/-- The module-level initialization of `capsem_integration.py`: the
`PROXY_CONFIG_DIR` environment variable (`none` = unset, `""` is falsy),
whether that path exists, and the outcome of
`load_policies_from_directory` (`Except.error` models a raised
exception) determine the process-wide `SecurityManager`. -/
def initSecurityManager (configDir : Option String) (dirExists : Bool)
    (loadResult : Except String SecurityManager) : SecurityManager :=
  if configDir.getD "" ≠ "" && dirExists then
    match loadResult with
    | .ok sm => sm
    | .error _ => ⟨[DebugPolicy]⟩
  else ⟨[DebugPolicy]⟩

/-! ## Derived observations on runs -/

/-- The visible (non-thought) text parts the non-streaming handler
accumulates into the prompt, as a pure function of the contents list. -/
def visibleParts : List RawContent → List String
  | [] => []
  | c :: cs =>
      if c.valid = false then visibleParts cs
      else if c.parts = [] then visibleParts cs
      else (collectTexts c.parts).1 ++ visibleParts cs

/-- The prompt string the non-streaming handler passes to
`on_model_call`: newline-joined visible texts. -/
def nonStreamPrompt (req : GeminiRequest) : String :=
  String.intercalate "\n" (visibleParts req.contents)

/-- The prompt string the streaming handler passes to `on_model_call`:
newline-joined role-prefixed texts (thought or not). -/
def streamPrompt (req : GeminiRequest) : String :=
  String.intercalate "\n" (streamPromptParts req.contents)

def isToolRespEv : GateEvent → Bool
  | .toolResponse _ _ _ => true
  | _ => false

def isModelCallEv : GateEvent → Bool
  | .modelCall _ _ _ _ => true
  | _ => false

def isToolCallEv : GateEvent → Bool
  | .toolCall _ _ _ => true
  | _ => false

def isModelRespEv : GateEvent → Bool
  | .modelResponse _ _ _ => true
  | _ => false

/-- The tools carried by a gate event. -/
def evTools : GateEvent → List Tool
  | .toolResponse t _ _ => [t]
  | .toolCall t _ _ => [t]
  | .modelCall _ _ _ _ => []
  | .modelResponse _ _ _ => []

/-- The parts of a candidate, empty when it has no content. -/
def candParts (c : Candidate) : List Part :=
  match c.content with
  | some ct => ct.parts
  | none => []

/-- The part carries a function call whose name contains the trigger. -/
def partTriggers (p : Part) : Bool :=
  match p.function_call with
  | some fc => containsTrigger fc.name
  | none => false

/-- Some candidate contains a function-call part whose name contains the
trigger token. -/
def anyTriggerFC (cands : List Candidate) : Bool :=
  cands.any fun c => (candParts c).any partTriggers

def RespOut.events : RespOut → List GateEvent
  | .blocked evs _ => evs
  | .done _ _ evs => evs

def InboundOut.events : InboundOut → List GateEvent
  | .blocked evs _ => evs
  | .done acc => acc.events

/-! ## Helper lemmas -/

theorem startsWithChars_self (l : List Char) : startsWithChars l l = true := by
  induction l with
  | nil => rfl
  | cons a as ih => simp [startsWithChars, ih]

theorem containsChars_self (l : List Char) : containsChars l l = true := by
  cases l with
  | nil => rfl
  | cons a as => simp [containsChars, startsWithChars_self]

theorem containsChars_append_left (n : List Char) :
    ∀ h : List Char, containsChars n (h ++ n) = true := by
  intro h
  induction h with
  | nil => simpa using containsChars_self n
  | cons a as ih =>
      cases hn : as ++ n with
      | nil =>
          obtain ⟨h1, h2⟩ := List.append_eq_nil.mp hn
          subst h2
          simp [containsChars, startsWithChars]
      | cons b bs => simp [containsChars, ← hn, ih]

/-- Any string contains its own suffix (used for the 403 detail prefix). -/
theorem hasSubStr_append_left (pre s : String) :
    hasSubStr (pre ++ s) s = true := by
  simp only [hasSubStr, String.toList]
  have : (pre ++ s).data = pre.data ++ s.data := by
    simp [String.toList]
  rw [this]
  exact containsChars_append_left s.data pre.data

theorem orDefault_ne_empty (s d : String) (hd : d ≠ "") :
    orDefault s d ≠ "" := by
  unfold orDefault
  split <;> simp_all

/-- Aggregation over the single default policy is the decision of that policy. -/
theorem aggregate_singleton (d : Decision) : aggregate [d] = d := rfl

theorem defaultManager_on_model_call (m s p : String) :
    defaultManager.on_model_call m s p = DebugPolicy.on_model_call m s p := rfl

theorem defaultManager_on_tool_call (t : Tool) (a : Args) :
    defaultManager.on_tool_call t a = DebugPolicy.on_tool_call t a := rfl

theorem defaultManager_on_tool_response (t : Tool) (r : Args) :
    defaultManager.on_tool_response t r = DebugPolicy.on_tool_response t r := rfl

theorem defaultManager_on_model_response (r th : String) :
    defaultManager.on_model_response r th = DebugPolicy.on_model_response r th := rfl

theorem DebugPolicy_on_model_call_block {p : String}
    (h : containsTrigger p = true) (m s : String) :
    DebugPolicy.on_model_call m s p =
      { verdict := .BLOCK, reason := .POLICY_VIOLATION,
        details := "Detected \x27capsem_block\x27 in prompt" } := by
  simp [DebugPolicy, h]

/-- The prompt list an `inboundLoop` completion accumulates is exactly the
visible (non-thought) texts of the contents list. -/
theorem inbound_done_prompts (sm : SecurityManager) :
    ∀ cs acc, inboundLoop sm cs = InboundOut.done acc →
      acc.prompts = visibleParts cs := by
  intro cs
  induction cs with
  | nil =>
      intro acc h
      simp only [inboundLoop] at h
      cases h
      rfl
  | cons c cs ih =>
      intro acc h
      simp only [inboundLoop] at h
      split at h
      next hv =>
        simp only [visibleParts, hv, ite_true]
        exact ih acc h
      next hv =>
        split at h
        next hp =>
          simp only [visibleParts, hv, hp]
          simp only [ite_true, ite_false, if_neg hv, if_pos hp]
          exact ih acc h
        next hp =>
          split at h
          next fr hfr =>
            split at h
            next hb => cases h
            next hb =>
              split at h
              next evs det hrec => cases h
              next acc2 hrec =>
                cases h
                simp only [visibleParts, if_neg hv, if_neg hp]
                simp [ih acc2 hrec]
          next hfr =>
            split at h
            next evs det hrec => cases h
            next acc2 hrec =>
              cases h
              simp only [visibleParts, if_neg hv, if_neg hp]
              simp [ih acc2 hrec]

/-- Text accumulation does not change the gate-event trace. -/
theorem addText_events (p : Part) (r : RespOut) :
    (addText p r).events = r.events := by
  cases r with
  | blocked evs det => rfl
  | done vs ts evs =>
      simp only [addText]
      cases p.text with
      | none => rfl
      | some s =>
          by_cases hs : s = "" <;> by_cases ht : p.thought <;>
            simp [hs, ht, RespOut.events]

/-- Every gate event of the inbound loop is an `on_tool_response` event. -/
theorem inbound_events_toolResp (sm : SecurityManager) :
    ∀ cs, ∀ ev ∈ (inboundLoop sm cs).events, isToolRespEv ev = true := by
  intro cs
  induction cs with
  | nil =>
      intro ev hev
      simp [inboundLoop, InboundOut.events] at hev
  | cons c cs ih =>
      intro ev hev
      simp only [inboundLoop] at hev
      split at hev
      next hv => exact ih ev hev
      next hv =>
        split at hev
        next hp => exact ih ev hev
        next hp =>
          split at hev
          next fr hfr =>
            split at hev
            next hb =>
              simp [InboundOut.events] at hev
              subst hev
              rfl
            next hb =>
              split at hev
              next evs det hrec =>
                simp only [InboundOut.events, List.mem_cons] at hev
                rcases hev with rfl | hev
                · rfl
                · exact ih ev (by rw [hrec]; exact hev)
              next acc2 hrec =>
                simp only [InboundOut.events, List.mem_cons] at hev
                rcases hev with rfl | hev
                · rfl
                · exact ih ev (by rw [hrec]; exact hev)
          next hfr =>
            split at hev
            next evs det hrec =>
              exact ih ev (by rw [hrec]; exact hev)
            next acc2 hrec =>
              exact ih ev (by rw [hrec]; exact hev)

/-- Every gate event of the response parts loop is an `on_tool_call`
event. -/
theorem respPartsLoop_events_toolCall (sm : SecurityManager) :
    ∀ ps, ∀ ev ∈ (respPartsLoop sm ps).events, isToolCallEv ev = true := by
  intro ps
  induction ps with
  | nil =>
      intro ev hev
      simp [respPartsLoop, RespOut.events] at hev
  | cons p ps ih =>
      intro ev hev
      simp only [respPartsLoop] at hev
      split at hev
      next fc hfc =>
        split at hev
        next hb =>
          simp [RespOut.events] at hev
          subst hev
          rfl
        next hb =>
          split at hev
          next evs det hrec =>
            simp only [RespOut.events, List.mem_cons] at hev
            rcases hev with rfl | hev
            · rfl
            · exact ih ev (by rw [hrec]; exact hev)
          next vs ts evs hrec =>
            rw [addText_events] at hev
            simp only [RespOut.events, List.mem_cons] at hev
            rcases hev with rfl | hev
            · rfl
            · exact ih ev (by rw [hrec]; exact hev)
      next hfc =>
        rw [addText_events] at hev
        exact ih ev hev

/-- Every gate event of the candidates loop is an `on_tool_call` event. -/
theorem respLoop_events_toolCall (sm : SecurityManager) :
    ∀ cands, ∀ ev ∈ (respLoop sm cands).events, isToolCallEv ev = true := by
  intro cands
  induction cands with
  | nil =>
      intro ev hev
      simp [respLoop, RespOut.events] at hev
  | cons c cs ih =>
      intro ev hev
      simp only [respLoop] at hev
      split at hev
      next hct => exact ih ev hev
      next ct hct =>
        split at hev
        next hp => exact ih ev hev
        next hp =>
          split at hev
          next evs det hrec =>
            exact respPartsLoop_events_toolCall sm ct.parts ev
              (by rw [hrec]; exact hev)
          next vs ts evs hrec =>
            split at hev
            next evs2 det hrec2 =>
              simp only [RespOut.events, List.mem_append] at hev
              rcases hev with hev | hev
              · exact respPartsLoop_events_toolCall sm ct.parts ev
                  (by rw [hrec]; exact hev)
              · exact ih ev (by rw [hrec2]; exact hev)
            next vs2 ts2 evs2 hrec2 =>
              simp only [RespOut.events, List.mem_append] at hev
              rcases hev with hev | hev
              · exact respPartsLoop_events_toolCall sm ct.parts ev
                  (by rw [hrec]; exact hev)
              · exact ih ev (by rw [hrec2]; exact hev)

theorem addText_blocked (p : Part) (evs : List GateEvent) (det : String) :
    addText p (.blocked evs det) = .blocked evs det := rfl

/-- Text accumulation keeps a completed loop completed. -/
theorem addText_done (p : Part) (vs ts : List String) (evs : List GateEvent) :
    ∃ vs2 ts2, addText p (.done vs ts evs) = .done vs2 ts2 evs := by
  simp only [addText]
  cases p.text with
  | none => exact ⟨vs, ts, rfl⟩
  | some s =>
      by_cases hs : s = ""
      · exact ⟨vs, ts, by simp [hs]⟩
      · by_cases ht : p.thought
        · exact ⟨vs, s :: ts, by simp [hs, ht]⟩
        · exact ⟨s :: vs, ts, by simp [hs, ht]⟩

/-- A `BLOCK` verdict from `on_tool_call` of the default manager carries a
403 detail that mentions the trigger token. -/
theorem default_on_tool_call_block_detail (t : Tool) (a : Args)
    (h : (defaultManager.on_tool_call t a).verdict = .BLOCK) :
    hasSubStr ("Request blocked by security policy: "
      ++ (defaultManager.on_tool_call t a).details) DEBUG_TRIGGER = true := by
  rw [defaultManager_on_tool_call] at h ⊢
  by_cases h1 : containsTrigger t.name
  · simp only [DebugPolicy, h1, if_true]
    decide
  · by_cases h2 : containsTrigger (argsJoin a)
    · simp only [DebugPolicy, h1, h2, if_false, if_true, Bool.false_eq_true,
        ite_false, ite_true]
      decide
    · simp [DebugPolicy, h1, h2, DEFAULT_SAFE_DECISION] at h

/-- If some part carries a function call whose name contains the trigger,
the response parts loop blocks under the default manager. -/
theorem respPartsLoop_blocks :
    ∀ ps : List Part, ps.any partTriggers = true →
      ∃ evs det, respPartsLoop defaultManager ps = .blocked evs det := by
  intro ps
  induction ps with
  | nil => intro h; simp at h
  | cons p ps ih =>
      intro h
      rcases hres : respPartsLoop defaultManager (p :: ps)
        with ⟨evs, det⟩ | ⟨vs, ts, evs⟩
      · exact ⟨evs, det, rfl⟩
      · exfalso
        rcases hfc : p.function_call with _ | fc
        · have htail : ps.any partTriggers = true := by
            simpa [List.any_cons, partTriggers, hfc] using h
          obtain ⟨evs2, det2, hrec⟩ := ih htail
          simp [respPartsLoop, hfc, hrec, addText_blocked] at hres
        · by_cases hb : (defaultManager.on_tool_call
              ⟨fc.name, "Function call from model", fc.args.getD []⟩
              (fc.args.getD [])).verdict = .BLOCK
          · simp [respPartsLoop, hfc, hb] at hres
          · have hname : ¬ containsTrigger fc.name = true := by
              intro hcn
              apply hb
              rw [defaultManager_on_tool_call]
              simp [DebugPolicy, hcn]
            have htail : ps.any partTriggers = true := by
              simpa [List.any_cons, partTriggers, hfc, hname] using h
            obtain ⟨evs2, det2, hrec⟩ := ih htail
            simp [respPartsLoop, hfc, hb, hrec] at hres

/-- A blocked response parts loop (default manager) blocked on an
`on_tool_call` event and its detail mentions the trigger token. -/
theorem respPartsLoop_blocked_info :
    ∀ ps evs det, respPartsLoop defaultManager ps = .blocked evs det →
      hasSubStr det DEBUG_TRIGGER = true
      ∧ ∃ t a d, GateEvent.toolCall t a d ∈ evs ∧ d.verdict = Verdict.BLOCK := by
  intro ps
  induction ps with
  | nil => intro evs det h; simp [respPartsLoop] at h
  | cons p ps ih =>
      intro evs det h
      simp only [respPartsLoop] at h
      split at h
      next fc hfc =>
        split at h
        next hb =>
          cases h
          refine ⟨default_on_tool_call_block_detail _ _ hb,
            ⟨fc.name, "Function call from model", fc.args.getD []⟩,
            fc.args.getD [],
            defaultManager.on_tool_call
              ⟨fc.name, "Function call from model", fc.args.getD []⟩
              (fc.args.getD []), ?_, hb⟩
          simp
        next hb =>
          split at h
          next evs2 det2 hrec =>
            cases h
            obtain ⟨h1, t, a, dd, hmem, hdd⟩ := ih _ _ hrec
            exact ⟨h1, t, a, dd, List.mem_cons_of_mem _ hmem, hdd⟩
          next vs ts evs2 hrec =>
            obtain ⟨vs2, ts2, hat⟩ := addText_done p vs ts
              (GateEvent.toolCall
                ⟨fc.name, "Function call from model", fc.args.getD []⟩
                (fc.args.getD [])
                (defaultManager.on_tool_call
                  ⟨fc.name, "Function call from model", fc.args.getD []⟩
                  (fc.args.getD [])) :: evs2)
            rw [hat] at h
            cases h
      next hfc =>
        rcases hr : respPartsLoop defaultManager ps
          with ⟨evs2, det2⟩ | ⟨vs, ts, evs2⟩
        · rw [hr, addText_blocked] at h
          cases h
          exact ih _ _ hr
        · rw [hr] at h
          obtain ⟨vs2, ts2, hat⟩ := addText_done p vs ts evs2
          rw [hat] at h
          cases h

/-- `anyTriggerFC` forces the candidates loop to block (default manager). -/
theorem respLoop_blocks :
    ∀ cands, anyTriggerFC cands = true →
      ∃ evs det, respLoop defaultManager cands = .blocked evs det := by
  intro cands
  induction cands with
  | nil => intro h; simp [anyTriggerFC] at h
  | cons c cs ih =>
      intro h
      rcases hres : respLoop defaultManager (c :: cs)
        with ⟨evs, det⟩ | ⟨vs, ts, evs⟩
      · exact ⟨evs, det, rfl⟩
      · exfalso
        rcases hct : c.content with _ | ct
        · have htail : anyTriggerFC cs = true := by
            simpa [anyTriggerFC, candParts, hct] using h
          obtain ⟨evs2, det2, hrec⟩ := ih htail
          simp [respLoop, hct, hrec] at hres
        · by_cases hp : ct.parts = []
          · have htail : anyTriggerFC cs = true := by
              simpa [anyTriggerFC, candParts, hct, hp] using h
            obtain ⟨evs2, det2, hrec⟩ := ih htail
            simp [respLoop, hct, hp, hrec] at hres
          · rcases hpl : respPartsLoop defaultManager ct.parts
                with ⟨evs2, det2⟩ | ⟨vs2, ts2, evs2⟩
            · simp [respLoop, hct, hp, hpl] at hres
            · have hhead : ¬ ct.parts.any partTriggers = true := by
                intro hx
                obtain ⟨e2, d2, hb⟩ := respPartsLoop_blocks ct.parts hx
                rw [hpl] at hb
                cases hb
              have htail : anyTriggerFC cs = true := by
                have hh := h
                simp only [anyTriggerFC, List.any_cons, candParts, hct,
                  Bool.or_eq_true] at hh
                rcases hh with hx | hx
                · exact absurd hx hhead
                · simpa [anyTriggerFC] using hx
              obtain ⟨evs3, det3, hrec⟩ := ih htail
              simp [respLoop, hct, hp, hpl, hrec] at hres

/-- A blocked candidates loop (default manager) blocked on an
`on_tool_call` event and its detail mentions the trigger token. -/
theorem respLoop_blocked_info :
    ∀ cands evs det, respLoop defaultManager cands = .blocked evs det →
      hasSubStr det DEBUG_TRIGGER = true
      ∧ ∃ t a d, GateEvent.toolCall t a d ∈ evs ∧ d.verdict = Verdict.BLOCK := by
  intro cands
  induction cands with
  | nil => intro evs det h; simp [respLoop] at h
  | cons c cs ih =>
      intro evs det h
      simp only [respLoop] at h
      split at h
      next hct => exact ih _ _ h
      next ct hct =>
        split at h
        next hp => exact ih _ _ h
        next hp =>
          split at h
          next evs2 det2 hrec =>
            cases h
            exact respPartsLoop_blocked_info _ _ _ hrec
          next vs ts evs2 hrec =>
            split at h
            next evs3 det3 hrec2 =>
              cases h
              obtain ⟨h1, t, a, dd, hmem, hdd⟩ := ih _ _ hrec2
              exact ⟨h1, t, a, dd, List.mem_append_right _ hmem, hdd⟩
            next vs3 ts3 evs3 hrec2 => cases h

/-- A completed streaming pre-check loop checked every declared function
declaration, in order, and none of them blocked. -/
theorem streamDeclLoop_done (sm : SecurityManager) :
    ∀ fds evs, streamDeclLoop sm fds = .done evs →
      evs = fds.map (fun fd => GateEvent.toolCall (declTool fd) []
              (sm.on_tool_call (declTool fd) []))
      ∧ ∀ fd ∈ fds, (sm.on_tool_call (declTool fd) []).verdict ≠ .BLOCK := by
  intro fds
  induction fds with
  | nil =>
      intro evs h
      simp only [streamDeclLoop] at h
      cases h
      simp
  | cons g fds ih =>
      intro evs h
      simp only [streamDeclLoop] at h
      split at h
      next hb => cases h
      next hb =>
        split at h
        next evs2 det hrec => cases h
        next evs2 hrec =>
          cases h
          obtain ⟨he, hall⟩ := ih evs2 hrec
          refine ⟨by simp [he], ?_⟩
          intro x hx
          rcases List.mem_cons.mp hx with rfl | hx
          · exact hb
          · exact hall x hx

/-- A declared tool whose pre-check blocks makes the streaming pre-check
loop block. -/
theorem streamDeclLoop_blocked_of_mem (sm : SecurityManager) :
    ∀ fds, (∃ fd ∈ fds, (sm.on_tool_call (declTool fd) []).verdict = .BLOCK) →
      ∃ evs det, streamDeclLoop sm fds = .blocked evs det := by
  intro fds
  induction fds with
  | nil => rintro ⟨fd, hfd, _⟩; cases hfd
  | cons g fds ih =>
      rintro ⟨fd, hfd, hb⟩
      rcases hres : streamDeclLoop sm (g :: fds) with ⟨evs, det⟩ | ⟨evs⟩
      · exact ⟨evs, det, rfl⟩
      · exfalso
        by_cases hg : (sm.on_tool_call (declTool g) []).verdict = .BLOCK
        · simp [streamDeclLoop, hg] at hres
        · rcases List.mem_cons.mp hfd with rfl | hfd
          · exact absurd hb hg
          · obtain ⟨evs2, det2, hrec⟩ := ih ⟨fd, hfd, hb⟩
            simp [streamDeclLoop, hg, hrec] at hres

/-! ## Run-shape equations for the two handlers -/

theorem run_eq_blocked_inbound (sm : SecurityManager) (uid model : String)
    (req : GeminiRequest) (oracle : GenResponse) (evs : List GateEvent)
    (det : String) (hI : inboundLoop sm req.contents = .blocked evs det) :
    generate_content sm uid model req oracle =
      ⟨evs, false, .httpError 403 det⟩ := by
  simp [generate_content, hI]

theorem run_eq_model_block (sm : SecurityManager) (uid model : String)
    (req : GeminiRequest) (oracle : GenResponse) (acc : InboundAcc)
    (hI : inboundLoop sm req.contents = .done acc)
    (hB : (sm.on_model_call model ""
        (String.intercalate "\n" acc.prompts)).verdict = .BLOCK) :
    generate_content sm uid model req oracle =
      ⟨acc.events ++ [.modelCall model "" (String.intercalate "\n" acc.prompts)
          (sm.on_model_call model "" (String.intercalate "\n" acc.prompts))],
       false,
       .httpError 403 ("Request blocked by security policy: "
          ++ (sm.on_model_call model ""
              (String.intercalate "\n" acc.prompts)).details)⟩ := by
  simp [generate_content, hI, hB]

theorem run_eq_no_candidates (sm : SecurityManager) (uid model : String)
    (req : GeminiRequest) (oracle : GenResponse) (acc : InboundAcc)
    (hI : inboundLoop sm req.contents = .done acc)
    (hB : ¬ (sm.on_model_call model ""
        (String.intercalate "\n" acc.prompts)).verdict = .BLOCK)
    (hc : oracle.candidates = []) :
    generate_content sm uid model req oracle =
      ⟨acc.events ++ [.modelCall model "" (String.intercalate "\n" acc.prompts)
          (sm.on_model_call model "" (String.intercalate "\n" acc.prompts))],
       true, .ok oracle⟩ := by
  simp [generate_content, hI, hB, hc]

theorem run_eq_resp_blocked (sm : SecurityManager) (uid model : String)
    (req : GeminiRequest) (oracle : GenResponse) (acc : InboundAcc)
    (evs2 : List GateEvent) (det : String)
    (hI : inboundLoop sm req.contents = .done acc)
    (hB : ¬ (sm.on_model_call model ""
        (String.intercalate "\n" acc.prompts)).verdict = .BLOCK)
    (hc : ¬ oracle.candidates = [])
    (hR : respLoop sm oracle.candidates = .blocked evs2 det) :
    generate_content sm uid model req oracle =
      ⟨acc.events ++ .modelCall model "" (String.intercalate "\n" acc.prompts)
          (sm.on_model_call model "" (String.intercalate "\n" acc.prompts))
          :: evs2,
       true, .httpError 403 det⟩ := by
  simp [generate_content, hI, hB, hc, hR]

theorem run_eq_resp_done (sm : SecurityManager) (uid model : String)
    (req : GeminiRequest) (oracle : GenResponse) (acc : InboundAcc)
    (vs ts : List String) (evs2 : List GateEvent)
    (hI : inboundLoop sm req.contents = .done acc)
    (hB : ¬ (sm.on_model_call model ""
        (String.intercalate "\n" acc.prompts)).verdict = .BLOCK)
    (hc : ¬ oracle.candidates = [])
    (hR : respLoop sm oracle.candidates = .done vs ts evs2) :
    generate_content sm uid model req oracle =
      ⟨acc.events ++ .modelCall model "" (String.intercalate "\n" acc.prompts)
          (sm.on_model_call model "" (String.intercalate "\n" acc.prompts))
          :: evs2
          ++ [.modelResponse (String.intercalate "\n" vs)
              (String.intercalate "\n" ts)
              (sm.on_model_response (String.intercalate "\n" vs)
                (String.intercalate "\n" ts))],
       true,
       if (sm.on_model_response (String.intercalate "\n" vs)
            (String.intercalate "\n" ts)).verdict = .BLOCK then
         .httpError 403 ("Request blocked by security policy: "
            ++ (sm.on_model_response (String.intercalate "\n" vs)
                (String.intercalate "\n" ts)).details)
       else .ok oracle⟩ := by
  by_cases hrb : (sm.on_model_response (String.intercalate "\n" vs)
      (String.intercalate "\n" ts)).verdict = .BLOCK <;>
    simp [generate_content, hI, hB, hc, hR, hrb]

theorem stream_eq_model_block (sm : SecurityManager) (uid model : String)
    (req : GeminiRequest)
    (hB : (sm.on_model_call model "" (streamPrompt req)).verdict = .BLOCK) :
    stream_generate_content sm uid model req =
      ⟨[.modelCall model "" (streamPrompt req)
          (sm.on_model_call model "" (streamPrompt req))],
       false,
       .httpError 403 ("Request blocked by security policy: "
          ++ (sm.on_model_call model "" (streamPrompt req)).details)⟩ := by
  simp only [stream_generate_content, streamPrompt] at hB ⊢
  simp [hB]

theorem stream_eq_decl_blocked (sm : SecurityManager) (uid model : String)
    (req : GeminiRequest) (evs : List GateEvent) (det : String)
    (hB : ¬ (sm.on_model_call model "" (streamPrompt req)).verdict = .BLOCK)
    (hD : streamDeclLoop sm (declsOf req.tools) = .blocked evs det) :
    stream_generate_content sm uid model req =
      ⟨.modelCall model "" (streamPrompt req)
          (sm.on_model_call model "" (streamPrompt req)) :: evs,
       false, .httpError 403 det⟩ := by
  simp only [stream_generate_content, streamPrompt] at hB ⊢
  simp [hB, hD]

theorem stream_eq_done (sm : SecurityManager) (uid model : String)
    (req : GeminiRequest) (evs : List GateEvent)
    (hB : ¬ (sm.on_model_call model "" (streamPrompt req)).verdict = .BLOCK)
    (hD : streamDeclLoop sm (declsOf req.tools) = .done evs) :
    stream_generate_content sm uid model req =
      ⟨.modelCall model "" (streamPrompt req)
          (sm.on_model_call model "" (streamPrompt req)) :: evs,
       true, .streaming⟩ := by
  simp only [stream_generate_content, streamPrompt] at hB ⊢
  simp [hB, hD]

def StreamToolOut.events : StreamToolOut → List GateEvent
  | .blocked evs _ => evs
  | .done evs => evs

theorem streamDeclLoop_events_toolCall (sm : SecurityManager) :
    ∀ fds, ∀ ev ∈ (streamDeclLoop sm fds).events, isToolCallEv ev = true := by
  intro fds
  induction fds with
  | nil =>
      intro ev hev
      simp [streamDeclLoop, StreamToolOut.events] at hev
  | cons g fds ih =>
      intro ev hev
      simp only [streamDeclLoop] at hev
      split at hev
      next hb =>
        simp [StreamToolOut.events] at hev
        subst hev
        rfl
      next hb =>
        split at hev
        next evs det hrec =>
          simp only [StreamToolOut.events, List.mem_cons] at hev
          rcases hev with rfl | hev
          · rfl
          · exact ih ev (by rw [hrec]; exact hev)
        next evs hrec =>
          simp only [StreamToolOut.events, List.mem_cons] at hev
          rcases hev with rfl | hev
          · rfl
          · exact ih ev (by rw [hrec]; exact hev)

/-- Any `on_model_call` gate event of a non-streaming run carries the
visible-texts-only prompt. -/
theorem nonstream_modelCall_prompt (sm : SecurityManager) (uid model : String)
    (req : GeminiRequest) (oracle : GenResponse) {m s p : String} {d : Decision}
    (hmem : GateEvent.modelCall m s p d ∈
      (generate_content sm uid model req oracle).events) :
    p = nonStreamPrompt req := by
  rcases hI : inboundLoop sm req.contents with ⟨evs, det⟩ | ⟨acc⟩
  · rw [run_eq_blocked_inbound sm uid model req oracle evs det hI] at hmem
    have := inbound_events_toolResp sm req.contents _ (by rw [hI]; exact hmem)
    simp [isToolRespEv] at this
  · have hnp : String.intercalate "\n" acc.prompts = nonStreamPrompt req := by
      rw [inbound_done_prompts sm req.contents acc hI]; rfl
    by_cases hB : (sm.on_model_call model ""
        (String.intercalate "\n" acc.prompts)).verdict = .BLOCK
    · rw [run_eq_model_block sm uid model req oracle acc hI hB] at hmem
      rcases List.mem_append.mp hmem with hmem | hmem
      · have := inbound_events_toolResp sm req.contents _ (by rw [hI]; exact hmem)
        simp [isToolRespEv] at this
      · rcases List.mem_singleton.mp hmem with heq
        injection heq with hm hs hp hd
        rw [hp]
        exact hnp
    · by_cases hc : oracle.candidates = []
      · rw [run_eq_no_candidates sm uid model req oracle acc hI hB hc] at hmem
        rcases List.mem_append.mp hmem with hmem | hmem
        · have := inbound_events_toolResp sm req.contents _
            (by rw [hI]; exact hmem)
          simp [isToolRespEv] at this
        · rcases List.mem_singleton.mp hmem with heq
          injection heq with hm hs hp hd
          rw [hp]
          exact hnp
      · rcases hR : respLoop sm oracle.candidates
            with ⟨evs2, det⟩ | ⟨vs, ts, evs2⟩
        · rw [run_eq_resp_blocked sm uid model req oracle acc evs2 det
              hI hB hc hR] at hmem
          rcases List.mem_append.mp hmem with hmem | hmem
          · have := inbound_events_toolResp sm req.contents _
              (by rw [hI]; exact hmem)
            simp [isToolRespEv] at this
          · rcases List.mem_cons.mp hmem with heq | hmem
            · injection heq with hm hs hp hd
              rw [hp]
              exact hnp
            · have := respLoop_events_toolCall sm oracle.candidates _
                (by rw [hR]; exact hmem)
              simp [isToolCallEv] at this
        · rw [run_eq_resp_done sm uid model req oracle acc vs ts evs2
              hI hB hc hR] at hmem
          rcases List.mem_append.mp hmem with hmem | hmem
          · rcases List.mem_append.mp hmem with hmem | hmem
            · have := inbound_events_toolResp sm req.contents _
                (by rw [hI]; exact hmem)
              simp [isToolRespEv] at this
            · rcases List.mem_cons.mp hmem with heq | hmem
              · injection heq with hm hs hp hd
                rw [hp]
                exact hnp
              · have := respLoop_events_toolCall sm oracle.candidates _
                  (by rw [hR]; exact hmem)
                simp [isToolCallEv] at this
          · rcases List.mem_singleton.mp hmem with heq
            cases heq

/-- Any `on_model_call` gate event of a streaming run carries the
role-prefixed all-texts prompt. -/
theorem stream_modelCall_prompt (sm : SecurityManager) (uid model : String)
    (req : GeminiRequest) {m s p : String} {d : Decision}
    (hmem : GateEvent.modelCall m s p d ∈
      (stream_generate_content sm uid model req).events) :
    p = streamPrompt req := by
  by_cases hB : (sm.on_model_call model "" (streamPrompt req)).verdict = .BLOCK
  · rw [stream_eq_model_block sm uid model req hB] at hmem
    rcases List.mem_singleton.mp hmem with heq
    cases heq
    rfl
  · rcases hD : streamDeclLoop sm (declsOf req.tools) with ⟨evs, det⟩ | ⟨evs⟩
    · rw [stream_eq_decl_blocked sm uid model req evs det hB hD] at hmem
      rcases List.mem_cons.mp hmem with heq | hmem
      · cases heq
        rfl
      · have := streamDeclLoop_events_toolCall sm (declsOf req.tools) _
          (by rw [hD]; exact hmem)
        simp [isToolCallEv] at this
    · rw [stream_eq_done sm uid model req evs hB hD] at hmem
      rcases List.mem_cons.mp hmem with heq | hmem
      · cases heq
        rfl
      · have := streamDeclLoop_events_toolCall sm (declsOf req.tools) _
          (by rw [hD]; exact hmem)
        simp [isToolCallEv] at this

/-! ## Tool-description lemmas -/

theorem inbound_events_desc (sm : SecurityManager) :
    ∀ cs, ∀ ev ∈ (inboundLoop sm cs).events, ∀ t ∈ evTools ev,
      t.description ≠ "" := by
  intro cs
  induction cs with
  | nil =>
      intro ev hev
      simp [inboundLoop, InboundOut.events] at hev
  | cons c cs ih =>
      intro ev hev
      simp only [inboundLoop] at hev
      split at hev
      next hv => exact ih ev hev
      next hv =>
        split at hev
        next hp => exact ih ev hev
        next hp =>
          split at hev
          next fr hfr =>
            split at hev
            next hb =>
              simp [InboundOut.events] at hev
              subst hev
              intro t ht
              rcases List.mem_singleton.mp ht with rfl
              exact (by decide : ("Function response from model" : String) ≠ "")
            next hb =>
              split at hev
              next evs det hrec =>
                simp only [InboundOut.events, List.mem_cons] at hev
                rcases hev with rfl | hev
                · intro t ht
                  rcases List.mem_singleton.mp ht with rfl
                  exact (by decide : ("Function response from model" : String) ≠ "")
                · exact ih ev (by rw [hrec]; exact hev)
              next acc2 hrec =>
                simp only [InboundOut.events, List.mem_cons] at hev
                rcases hev with rfl | hev
                · intro t ht
                  rcases List.mem_singleton.mp ht with rfl
                  exact (by decide : ("Function response from model" : String) ≠ "")
                · exact ih ev (by rw [hrec]; exact hev)
          next hfr =>
            split at hev
            next evs det hrec =>
              exact ih ev (by rw [hrec]; exact hev)
            next acc2 hrec =>
              exact ih ev (by rw [hrec]; exact hev)

theorem respPartsLoop_events_desc (sm : SecurityManager) :
    ∀ ps, ∀ ev ∈ (respPartsLoop sm ps).events, ∀ t ∈ evTools ev,
      t.description ≠ "" := by
  intro ps
  induction ps with
  | nil =>
      intro ev hev
      simp [respPartsLoop, RespOut.events] at hev
  | cons p ps ih =>
      intro ev hev
      simp only [respPartsLoop] at hev
      split at hev
      next fc hfc =>
        split at hev
        next hb =>
          simp [RespOut.events] at hev
          subst hev
          intro t ht
          rcases List.mem_singleton.mp ht with rfl
          exact (by decide : ("Function call from model" : String) ≠ "")
        next hb =>
          split at hev
          next evs det hrec =>
            simp only [RespOut.events, List.mem_cons] at hev
            rcases hev with rfl | hev
            · intro t ht
              rcases List.mem_singleton.mp ht with rfl
              exact (by decide : ("Function call from model" : String) ≠ "")
            · exact ih ev (by rw [hrec]; exact hev)
          next vs ts evs hrec =>
            rw [addText_events] at hev
            simp only [RespOut.events, List.mem_cons] at hev
            rcases hev with rfl | hev
            · intro t ht
              rcases List.mem_singleton.mp ht with rfl
              exact (by decide : ("Function call from model" : String) ≠ "")
            · exact ih ev (by rw [hrec]; exact hev)
      next hfc =>
        rw [addText_events] at hev
        exact ih ev hev

theorem respLoop_events_desc (sm : SecurityManager) :
    ∀ cands, ∀ ev ∈ (respLoop sm cands).events, ∀ t ∈ evTools ev,
      t.description ≠ "" := by
  intro cands
  induction cands with
  | nil =>
      intro ev hev
      simp [respLoop, RespOut.events] at hev
  | cons c cs ih =>
      intro ev hev
      simp only [respLoop] at hev
      split at hev
      next hct => exact ih ev hev
      next ct hct =>
        split at hev
        next hp => exact ih ev hev
        next hp =>
          split at hev
          next evs det hrec =>
            exact respPartsLoop_events_desc sm ct.parts ev
              (by rw [hrec]; exact hev)
          next vs ts evs hrec =>
            split at hev
            next evs2 det hrec2 =>
              simp only [RespOut.events, List.mem_append] at hev
              rcases hev with hev | hev
              · exact respPartsLoop_events_desc sm ct.parts ev
                  (by rw [hrec]; exact hev)
              · exact ih ev (by rw [hrec2]; exact hev)
            next vs2 ts2 evs2 hrec2 =>
              simp only [RespOut.events, List.mem_append] at hev
              rcases hev with hev | hev
              · exact respPartsLoop_events_desc sm ct.parts ev
                  (by rw [hrec]; exact hev)
              · exact ih ev (by rw [hrec2]; exact hev)

theorem declTool_desc (fd : FuncDecl) : (declTool fd).description ≠ "" :=
  orDefault_ne_empty _ _ (by decide)

theorem streamDeclLoop_events_desc (sm : SecurityManager) :
    ∀ fds, ∀ ev ∈ (streamDeclLoop sm fds).events, ∀ t ∈ evTools ev,
      t.description ≠ "" := by
  intro fds
  induction fds with
  | nil =>
      intro ev hev
      simp [streamDeclLoop, StreamToolOut.events] at hev
  | cons g fds ih =>
      intro ev hev
      simp only [streamDeclLoop] at hev
      split at hev
      next hb =>
        simp [StreamToolOut.events] at hev
        subst hev
        intro t ht
        rcases List.mem_singleton.mp ht with rfl
        exact declTool_desc g
      next hb =>
        split at hev
        next evs det hrec =>
          simp only [StreamToolOut.events, List.mem_cons] at hev
          rcases hev with rfl | hev
          · intro t ht
            rcases List.mem_singleton.mp ht with rfl
            exact declTool_desc g
          · exact ih ev (by rw [hrec]; exact hev)
        next evs hrec =>
          simp only [StreamToolOut.events, List.mem_cons] at hev
          rcases hev with rfl | hev
          · intro t ht
            rcases List.mem_singleton.mp ht with rfl
            exact declTool_desc g
          · exact ih ev (by rw [hrec]; exact hev)

theorem create_agent_tools_desc (uid : String) :
    ∀ tools, ∀ t ∈ (create_agent uid tools).tools, t.description ≠ "" := by
  intro tools
  induction tools with
  | nil =>
      intro t ht
      simp [create_agent] at ht
  | cons td tds ih =>
      intro t ht
      simp only [create_agent, List.foldr] at ht
      by_cases hty : td.type = some "function"
      · rw [if_pos hty] at ht
        rcases List.mem_cons.mp ht with rfl | ht
        · exact orDefault_ne_empty _ _ (by decide)
        · exact ih t (by simpa [create_agent] using ht)
      · rw [if_neg hty] at ht
        exact ih t (by simpa [create_agent] using ht)

/-- Every tool carried by any gate event of a non-streaming run has a
non-empty description. -/
theorem nonstream_events_desc (sm : SecurityManager) (uid model : String)
    (req : GeminiRequest) (oracle : GenResponse) :
    ∀ ev ∈ (generate_content sm uid model req oracle).events,
      ∀ t ∈ evTools ev, t.description ≠ "" := by
  intro ev hev
  rcases hI : inboundLoop sm req.contents with ⟨evs, det⟩ | ⟨acc⟩
  · rw [run_eq_blocked_inbound sm uid model req oracle evs det hI] at hev
    exact inbound_events_desc sm req.contents ev (by rw [hI]; exact hev)
  · by_cases hB : (sm.on_model_call model ""
        (String.intercalate "\n" acc.prompts)).verdict = .BLOCK
    · rw [run_eq_model_block sm uid model req oracle acc hI hB] at hev
      rcases List.mem_append.mp hev with hev | hev
      · exact inbound_events_desc sm req.contents ev (by rw [hI]; exact hev)
      · rcases List.mem_singleton.mp hev with rfl
        intro t ht
        simp [evTools] at ht
    · by_cases hc : oracle.candidates = []
      · rw [run_eq_no_candidates sm uid model req oracle acc hI hB hc] at hev
        rcases List.mem_append.mp hev with hev | hev
        · exact inbound_events_desc sm req.contents ev (by rw [hI]; exact hev)
        · rcases List.mem_singleton.mp hev with rfl
          intro t ht
          simp [evTools] at ht
      · rcases hR : respLoop sm oracle.candidates
            with ⟨evs2, det⟩ | ⟨vs, ts, evs2⟩
        · rw [run_eq_resp_blocked sm uid model req oracle acc evs2 det
              hI hB hc hR] at hev
          rcases List.mem_append.mp hev with hev | hev
          · exact inbound_events_desc sm req.contents ev
              (by rw [hI]; exact hev)
          · rcases List.mem_cons.mp hev with rfl | hev
            · intro t ht
              simp [evTools] at ht
            · exact respLoop_events_desc sm oracle.candidates ev
                (by rw [hR]; exact hev)
        · rw [run_eq_resp_done sm uid model req oracle acc vs ts evs2
              hI hB hc hR] at hev
          rcases List.mem_append.mp hev with hev | hev
          · rcases List.mem_append.mp hev with hev | hev
            · exact inbound_events_desc sm req.contents ev
                (by rw [hI]; exact hev)
            · rcases List.mem_cons.mp hev with rfl | hev
              · intro t ht
                simp [evTools] at ht
              · exact respLoop_events_desc sm oracle.candidates ev
                  (by rw [hR]; exact hev)
          · rcases List.mem_singleton.mp hev with rfl
            intro t ht
            simp [evTools] at ht

/-- Every tool carried by any gate event of a streaming run has a
non-empty description. -/
theorem stream_events_desc (sm : SecurityManager) (uid model : String)
    (req : GeminiRequest) :
    ∀ ev ∈ (stream_generate_content sm uid model req).events,
      ∀ t ∈ evTools ev, t.description ≠ "" := by
  intro ev hev
  by_cases hB : (sm.on_model_call model "" (streamPrompt req)).verdict = .BLOCK
  · rw [stream_eq_model_block sm uid model req hB] at hev
    rcases List.mem_singleton.mp hev with rfl
    intro t ht
    simp [evTools] at ht
  · rcases hD : streamDeclLoop sm (declsOf req.tools) with ⟨evs, det⟩ | ⟨evs⟩
    · rw [stream_eq_decl_blocked sm uid model req evs det hB hD] at hev
      rcases List.mem_cons.mp hev with rfl | hev
      · intro t ht
        simp [evTools] at ht
      · exact streamDeclLoop_events_desc sm (declsOf req.tools) ev
          (by rw [hD]; exact hev)
    · rw [stream_eq_done sm uid model req evs hB hD] at hev
      rcases List.mem_cons.mp hev with rfl | hev
      · intro t ht
        simp [evTools] at ht
      · exact streamDeclLoop_events_desc sm (declsOf req.tools) ev
          (by rw [hD]; exact hev)

/-! ## Claims -/

/-- C1: for every non-streaming generateContent request whose assembled
visible prompt text contains the trigger token "capsem_block"
(case-insensitively), with the default DebugPolicy installed, the
aggregate verdict of the `on_model_call` gate is `BLOCK`, the handler raises an
HTTP 403 error, and the `generate_content` of the upstream provider is never
invoked for that request. -/
theorem C1_trigger_blocks (user_id model : String) (req : GeminiRequest)
    (oracle : GenResponse)
    (h : containsTrigger (nonStreamPrompt req) = true) :
    (defaultManager.on_model_call model "" (nonStreamPrompt req)).verdict
        = .BLOCK
    ∧ (∃ det, (generate_content defaultManager user_id model req oracle).result
        = .httpError 403 det)
    ∧ (generate_content defaultManager user_id model req oracle).upstreamCalled
        = false := by
  have hgate : (defaultManager.on_model_call model ""
      (nonStreamPrompt req)).verdict = .BLOCK := by
    rw [defaultManager_on_model_call, DebugPolicy_on_model_call_block h]
  refine ⟨hgate, ?_⟩
  rcases hI : inboundLoop defaultManager req.contents with ⟨evs, det⟩ | ⟨acc⟩
  · rw [run_eq_blocked_inbound defaultManager user_id model req oracle
      evs det hI]
    exact ⟨⟨det, rfl⟩, rfl⟩
  · have hb : (defaultManager.on_model_call model ""
        (String.intercalate "\n" acc.prompts)).verdict = .BLOCK := by
      rw [inbound_done_prompts defaultManager req.contents acc hI]
      exact hgate
    rw [run_eq_model_block defaultManager user_id model req oracle acc hI hb]
    exact ⟨⟨_, rfl⟩, rfl⟩

def reqC1 : GeminiRequest :=
  ⟨[⟨true, some "user",
     [⟨some "what is the weather? capsem_block", false, none, none⟩]⟩], []⟩

/-- Witness for C1 at a concrete triggering request. -/
theorem C1_trigger_blocks_witness :
    containsTrigger (nonStreamPrompt reqC1) = true
    ∧ ((defaultManager.on_model_call "gemini-2.5-flash" ""
          (nonStreamPrompt reqC1)).verdict = .BLOCK
      ∧ (∃ det, (generate_content defaultManager "u" "gemini-2.5-flash"
            reqC1 ⟨[]⟩).result = .httpError 403 det)
      ∧ (generate_content defaultManager "u" "gemini-2.5-flash"
            reqC1 ⟨[]⟩).upstreamCalled = false) :=
  ⟨by decide, C1_trigger_blocks "u" "gemini-2.5-flash" reqC1 ⟨[]⟩ (by decide)⟩

/-- The request exhibiting the C2 bug: one valid content entry whose
FIRST part carries a functionResponse payload containing the trigger
token, followed by a benign text part. -/
def reqC2 : GeminiRequest :=
  ⟨[⟨true, some "user",
     [⟨none, false, none,
       some ⟨"get_weather", some [("result", "capsem_block")]⟩⟩,
      ⟨some "looks fine", false, none, none⟩]⟩], []⟩

/-- C2 (code bug): the claim says `on_tool_response` is invoked exactly
once for every part carrying a functionResponse; the code tests only the
leftover variable of the inner loop — the last part of each content entry —
so at this input (functionResponse on a non-last part, its payload
containing the trigger token) zero `on_tool_response` gates run, the
upstream provider is invoked and the run completes OK. -/
theorem C2_function_response_only_last_part :
    (reqC2.contents.any fun c =>
        c.parts.any fun p => p.function_response.isSome) = true
    ∧ ((generate_content defaultManager "u" "m" reqC2 ⟨[]⟩).events.countP
        isToolRespEv) = 0
    ∧ (generate_content defaultManager "u" "m" reqC2 ⟨[]⟩).upstreamCalled
        = true
    ∧ (generate_content defaultManager "u" "m" reqC2 ⟨[]⟩).result
        = .ok ⟨[]⟩ := by
  refine ⟨by decide, by decide, by decide, by decide⟩

def reqC3 : GeminiRequest :=
  ⟨[⟨true, none, [⟨some "secret_reasoning", true, none, none⟩]⟩], []⟩

/-- C3 counterexample: on the streaming endpoint a text part flagged as a
thought IS included in the prompt string passed to `on_model_call`
(role-prefixed), so the "on both endpoints" universal of the claim fails. -/
theorem C3_counterexample :
    (reqC3.contents.any fun c =>
        c.parts.any fun p => p.thought && p.text.isSome) = true
    ∧ (stream_generate_content defaultManager "u" "m" reqC3).events.head?
        = some (.modelCall "m" "" "user: secret_reasoning"
            (defaultManager.on_model_call "m" "" "user: secret_reasoning"))
    ∧ hasSubStr "user: secret_reasoning" "secret_reasoning" = true
    ∧ nonStreamPrompt reqC3 = "" := by
  refine ⟨by decide, by decide, by decide, by decide⟩

/-- C3 (amended): on the non-streaming endpoint the prompt passed to
`on_model_call` is exactly the newline-join of the visible (non-thought)
texts, so thought-flagged texts are never included there; on the
streaming endpoint the prompt is the newline-join of ALL role-prefixed
text parts, thought-flagged ones included. -/
theorem C3_thoughts_prompt_separation (sm : SecurityManager)
    (uid model : String) (req : GeminiRequest) (oracle : GenResponse) :
    (∀ m s p d, GateEvent.modelCall m s p d ∈
        (generate_content sm uid model req oracle).events →
        p = nonStreamPrompt req)
    ∧ (∀ m s p d, GateEvent.modelCall m s p d ∈
        (stream_generate_content sm uid model req).events →
        p = streamPrompt req) :=
  ⟨fun _ _ _ _ hmem => nonstream_modelCall_prompt sm uid model req oracle hmem,
   fun _ _ _ _ hmem => stream_modelCall_prompt sm uid model req hmem⟩

def reqC3w : GeminiRequest :=
  ⟨[⟨true, some "user",
     [⟨some "visible text", false, none, none⟩,
      ⟨some "thinking text", true, none, none⟩]⟩], []⟩

/-- Witness for C3 (amended) at a concrete request holding one visible
and one thought part. -/
theorem C3_thoughts_prompt_separation_witness :
    ((∀ m s p d, GateEvent.modelCall m s p d ∈
        (generate_content defaultManager "u" "m" reqC3w ⟨[]⟩).events →
        p = nonStreamPrompt reqC3w)
      ∧ (∀ m s p d, GateEvent.modelCall m s p d ∈
          (stream_generate_content defaultManager "u" "m" reqC3w).events →
          p = streamPrompt reqC3w))
    ∧ nonStreamPrompt reqC3w = "visible text"
    ∧ streamPrompt reqC3w = "user: visible text\nuser: thinking text" :=
  ⟨C3_thoughts_prompt_separation defaultManager "u" "m" reqC3w ⟨[]⟩,
   by decide, by decide⟩

def decC4 : Decision :=
  ⟨.BLOCK, .POLICY_VIOLATION, "Detected \x27capsem_block\x27 in prompt"⟩

/-- C4 counterexample: on a BLOCK decision the 403 body carries the
`details` of the decision but NOT the `reason` enum value: the detail raised
for this POLICY_VIOLATION block nowhere mentions POLICY_VIOLATION. -/
theorem C4_counterexample :
    decC4.verdict = .BLOCK
    ∧ decC4.reason = .POLICY_VIOLATION
    ∧ decideStep decC4 = some (403,
        "Request blocked by security policy: Detected \x27capsem_block\x27 in prompt")
    ∧ hasSubStr
        "Request blocked by security policy: Detected \x27capsem_block\x27 in prompt"
        decC4.details = true
    ∧ hasSubStr
        "Request blocked by security policy: Detected \x27capsem_block\x27 in prompt"
        "POLICY_VIOLATION" = false := by
  refine ⟨by decide, by decide, by decide, by decide, by decide⟩

/-- C4 (amended): whenever the aggregated Decision at a gate has verdict BLOCK
the gateway raises an HTTP 403 whose structured body embeds the
`details` string of the decision (the `reason` enum value is not part of the
body), and for `on_model_call` blocks the upstream provider is never
called. -/
theorem C4_block_to_403 (d : Decision) (hd : d.verdict = .BLOCK)
    (sm : SecurityManager) (uid model : String) (req : GeminiRequest)
    (oracle : GenResponse)
    (hm : (sm.on_model_call model "" (nonStreamPrompt req)).verdict = .BLOCK) :
    decideStep d
        = some (403, "Request blocked by security policy: " ++ d.details)
    ∧ hasSubStr ("Request blocked by security policy: " ++ d.details)
        d.details = true
    ∧ (generate_content sm uid model req oracle).upstreamCalled = false := by
  refine ⟨by simp [decideStep, hd], hasSubStr_append_left _ _, ?_⟩
  rcases hI : inboundLoop sm req.contents with ⟨evs, det⟩ | ⟨acc⟩
  · rw [run_eq_blocked_inbound sm uid model req oracle evs det hI]
  · have hb : (sm.on_model_call model ""
        (String.intercalate "\n" acc.prompts)).verdict = .BLOCK := by
      rw [inbound_done_prompts sm req.contents acc hI]
      exact hm
    rw [run_eq_model_block sm uid model req oracle acc hI hb]

def reqC4 : GeminiRequest :=
  ⟨[⟨true, some "user",
     [⟨some "send capsem_block to the model", false, none, none⟩]⟩], []⟩

/-- Witness for C4 (amended) at a concrete decision and request. -/
theorem C4_block_to_403_witness :
    decC4.verdict = .BLOCK
    ∧ (defaultManager.on_model_call "m" "" (nonStreamPrompt reqC4)).verdict
        = .BLOCK
    ∧ (decideStep decC4 = some (403,
          "Request blocked by security policy: " ++ decC4.details)
      ∧ hasSubStr ("Request blocked by security policy: " ++ decC4.details)
          decC4.details = true
      ∧ (generate_content defaultManager "u" "m" reqC4 ⟨[]⟩).upstreamCalled
          = false) :=
  ⟨by decide, by decide,
   C4_block_to_403 decC4 (by decide) defaultManager "u" "m" reqC4 ⟨[]⟩
     (by decide)⟩

/-- C5: for every non-streaming request whose provider response contains a
function-call part whose name contains the trigger token, with the
default DebugPolicy installed, the request is blocked at the
`on_tool_call` gate before `on_model_response` is ever evaluated (the
trace contains a blocking `on_tool_call` event and no `on_model_response`
event), and the client receives a 403 whose details reference the
trigger token. -/
theorem C5_tool_call_gate (uid model : String) (req : GeminiRequest)
    (oracle : GenResponse)
    (hup : (generate_content defaultManager uid model req oracle).upstreamCalled
        = true)
    (htr : anyTriggerFC oracle.candidates = true) :
    ∃ det, (generate_content defaultManager uid model req oracle).result
        = .httpError 403 det
      ∧ hasSubStr det DEBUG_TRIGGER = true
      ∧ (∀ ev ∈ (generate_content defaultManager uid model req oracle).events,
          isModelRespEv ev = false)
      ∧ (∃ t a d, GateEvent.toolCall t a d ∈
          (generate_content defaultManager uid model req oracle).events
          ∧ d.verdict = .BLOCK) := by
  rcases hI : inboundLoop defaultManager req.contents with ⟨evs, det⟩ | ⟨acc⟩
  · rw [run_eq_blocked_inbound defaultManager uid model req oracle
      evs det hI] at hup
    cases hup
  · by_cases hB : (defaultManager.on_model_call model ""
        (String.intercalate "\n" acc.prompts)).verdict = .BLOCK
    · rw [run_eq_model_block defaultManager uid model req oracle
        acc hI hB] at hup
      cases hup
    · have hc : ¬ oracle.candidates = [] := by
        intro hc0
        rw [hc0] at htr
        simp [anyTriggerFC] at htr
      obtain ⟨evs2, det, hR⟩ := respLoop_blocks oracle.candidates htr
      obtain ⟨hdet, t, a, dd, hmem, hdd⟩ := respLoop_blocked_info _ _ _ hR
      rw [run_eq_resp_blocked defaultManager uid model req oracle
        acc evs2 det hI hB hc hR]
      refine ⟨det, rfl, hdet, ?_, ⟨t, a, dd, ?_, hdd⟩⟩
      · intro ev hev
        rcases List.mem_append.mp hev with hev | hev
        · have := inbound_events_toolResp defaultManager req.contents _
            (by rw [hI]; exact hev)
          cases ev <;> simp_all [isToolRespEv, isModelRespEv]
        · rcases List.mem_cons.mp hev with rfl | hev
          · rfl
          · have := respLoop_events_toolCall defaultManager oracle.candidates _
              (by rw [hR]; exact hev)
            cases ev <;> simp_all [isToolCallEv, isModelRespEv]
      · exact List.mem_append_right _ (List.mem_cons_of_mem _ hmem)

def reqC5 : GeminiRequest :=
  ⟨[⟨true, some "user",
     [⟨some "please check the weather", false, none, none⟩]⟩], []⟩

def orC5 : GenResponse :=
  ⟨[⟨some ⟨[⟨none, false, some ⟨"weather_capsem_block_fn", none⟩, none⟩]⟩⟩]⟩

/-- Witness for C5 at a concrete benign request and a response carrying a
trigger-named function call. -/
theorem C5_tool_call_gate_witness :
    (generate_content defaultManager "u" "m" reqC5 orC5).upstreamCalled = true
    ∧ anyTriggerFC orC5.candidates = true
    ∧ (∃ det, (generate_content defaultManager "u" "m" reqC5 orC5).result
          = .httpError 403 det
        ∧ hasSubStr det DEBUG_TRIGGER = true
        ∧ (∀ ev ∈ (generate_content defaultManager "u" "m" reqC5 orC5).events,
            isModelRespEv ev = false)
        ∧ (∃ t a d, GateEvent.toolCall t a d ∈
            (generate_content defaultManager "u" "m" reqC5 orC5).events
            ∧ d.verdict = .BLOCK)) :=
  ⟨by decide, by decide,
   C5_tool_call_gate "u" "m" reqC5 orC5 (by decide) (by decide)⟩

def reqC6 : GeminiRequest :=
  ⟨[⟨true, some "user", [⟨some "hello there", false, none, none⟩]⟩], []⟩

/-- C6 counterexample: the streaming endpoint does NOT perform the same
inbound parsing as the non-streaming path: on the same body it passes
the role-prefixed prompt "user: hello there" to `on_model_call` while
the non-streaming handler passes "hello there". -/
theorem C6_counterexample :
    (stream_generate_content defaultManager "u" "m" reqC6).events.head?
        = some (.modelCall "m" "" "user: hello there"
            (defaultManager.on_model_call "m" "" "user: hello there"))
    ∧ (generate_content defaultManager "u" "m" reqC6 ⟨[]⟩).events.head?
        = some (.modelCall "m" "" "hello there"
            (defaultManager.on_model_call "m" "" "hello there"))
    ∧ ("user: hello there" : String) ≠ "hello there" := by
  refine ⟨by decide, by decide, by decide⟩

/-- C6 (amended): the streaming endpoint performs its own inbound parsing
(role-prefixed newline-join of every text part, thoughts included) rather
than the non-streaming parsing; it evaluates `on_model_call` first on
that prompt and then an `on_tool_call` pre-check for every declared
function declaration, all before the upstream stream is opened; if any of
these gates yields BLOCK the stream is never opened and a 403 is raised;
once the stream opens, chunks pass through with no further policy
evaluation (the trace consists exactly of the pre-flight gates). -/
theorem C6_stream_preflight (sm : SecurityManager) (uid model : String)
    (req : GeminiRequest) :
    ((stream_generate_content sm uid model req).events.head?
        = some (.modelCall model "" (streamPrompt req)
            (sm.on_model_call model "" (streamPrompt req))))
    ∧ ((sm.on_model_call model "" (streamPrompt req)).verdict = .BLOCK →
        (stream_generate_content sm uid model req).streamOpened = false
        ∧ ∃ det, (stream_generate_content sm uid model req).result
            = .httpError 403 det)
    ∧ ((∃ fd ∈ declsOf req.tools,
          (sm.on_tool_call (declTool fd) []).verdict = .BLOCK) →
        (stream_generate_content sm uid model req).streamOpened = false
        ∧ ∃ det, (stream_generate_content sm uid model req).result
            = .httpError 403 det)
    ∧ ((stream_generate_content sm uid model req).streamOpened = true →
        (stream_generate_content sm uid model req).result = .streaming
        ∧ (stream_generate_content sm uid model req).events
            = .modelCall model "" (streamPrompt req)
                (sm.on_model_call model "" (streamPrompt req))
              :: (declsOf req.tools).map (fun fd =>
                  .toolCall (declTool fd) [] (sm.on_tool_call (declTool fd) []))
        ∧ ∀ fd ∈ declsOf req.tools,
            (sm.on_tool_call (declTool fd) []).verdict ≠ .BLOCK) := by
  by_cases hB : (sm.on_model_call model "" (streamPrompt req)).verdict = .BLOCK
  · rw [stream_eq_model_block sm uid model req hB]
    refine ⟨rfl, fun _ => ⟨rfl, ⟨_, rfl⟩⟩, fun _ => ⟨rfl, ⟨_, rfl⟩⟩, ?_⟩
    intro hopen
    cases hopen
  · rcases hD : streamDeclLoop sm (declsOf req.tools) with ⟨evs, det⟩ | ⟨evs⟩
    · rw [stream_eq_decl_blocked sm uid model req evs det hB hD]
      refine ⟨rfl, fun hb => absurd hb hB, fun _ => ⟨rfl, ⟨det, rfl⟩⟩, ?_⟩
      intro hopen
      cases hopen
    · obtain ⟨hevs, hall⟩ := streamDeclLoop_done sm (declsOf req.tools) evs hD
      rw [stream_eq_done sm uid model req evs hB hD]
      refine ⟨rfl, fun hb => absurd hb hB, ?_, ?_⟩
      · rintro ⟨fd, hfd, hb⟩
        exact absurd hb (hall fd hfd)
      · intro _
        exact ⟨rfl, by rw [hevs], hall⟩

def reqC6w : GeminiRequest :=
  ⟨[⟨true, some "user", [⟨some "benign question", false, none, none⟩]⟩],
   [⟨none, none, some [⟨some "get_weather", some "Get the weather", none⟩]⟩]⟩

/-- Witness for C6 (amended) at a concrete streaming request with one
declared tool: all pre-flight gates allow and the stream opens. -/
theorem C6_stream_preflight_witness :
    (((stream_generate_content defaultManager "u" "m" reqC6w).events.head?
        = some (.modelCall "m" "" (streamPrompt reqC6w)
            (defaultManager.on_model_call "m" "" (streamPrompt reqC6w)))))
    ∧ (stream_generate_content defaultManager "u" "m" reqC6w).streamOpened
        = true
    ∧ (stream_generate_content defaultManager "u" "m" reqC6w).result
        = .streaming :=
  ⟨(C6_stream_preflight defaultManager "u" "m" reqC6w).1, by decide, by decide⟩

/-- C7: if the policy configuration directory is unset in the
environment, or names a nonexistent path, or loading from it raises an
error, the resulting security manager contains exactly one policy, the
default DebugPolicy, which blocks exactly on the literal trigger token
(in prompts, tool names/arguments, tool responses and model responses)
and otherwise returns the safe ALLOW decision. -/
theorem C7_default_fallback (configDir : Option String) (dirExists : Bool)
    (loadResult : Except String SecurityManager)
    (h : configDir = none ∨ dirExists = false ∨ ∃ e, loadResult = .error e) :
    (initSecurityManager configDir dirExists loadResult).policies
        = [DebugPolicy]
    ∧ (∀ m s p,
        ((initSecurityManager configDir dirExists loadResult).on_model_call
            m s p).verdict = .BLOCK ↔ containsTrigger p = true)
    ∧ (∀ m s p, containsTrigger p = false →
        (initSecurityManager configDir dirExists loadResult).on_model_call
            m s p = DEFAULT_SAFE_DECISION)
    ∧ (∀ t a,
        ((initSecurityManager configDir dirExists loadResult).on_tool_call
            t a).verdict = .BLOCK
          ↔ (containsTrigger t.name = true
            ∨ containsTrigger (argsJoin a) = true))
    ∧ (∀ r th,
        ((initSecurityManager configDir dirExists
            loadResult).on_model_response r th).verdict = .BLOCK
          ↔ containsTrigger r = true)
    ∧ (∀ t resp,
        ((initSecurityManager configDir dirExists
            loadResult).on_tool_response t resp).verdict = .BLOCK
          ↔ containsTrigger (pyStrDict resp) = true) := by
  have hsm : initSecurityManager configDir dirExists loadResult
      = ⟨[DebugPolicy]⟩ := by
    rcases h with rfl | rfl | ⟨e, rfl⟩
    · simp [initSecurityManager]
    · simp [initSecurityManager]
    · unfold initSecurityManager
      split
      · rfl
      · rfl
  rw [hsm]
  refine ⟨rfl, ?_, ?_, ?_, ?_, ?_⟩
  · intro m s p
    by_cases hc : containsTrigger p = true <;>
      simp [SecurityManager.on_model_call, aggregate, DebugPolicy, hc,
        DEFAULT_SAFE_DECISION]
  · intro m s p hc
    simp [SecurityManager.on_model_call, aggregate, DebugPolicy, hc]
  · intro t a
    by_cases h1 : containsTrigger t.name = true <;>
      by_cases h2 : containsTrigger (argsJoin a) = true <;>
      simp [SecurityManager.on_tool_call, aggregate, DebugPolicy, h1, h2,
        DEFAULT_SAFE_DECISION]
  · intro r th
    by_cases hc : containsTrigger r = true <;>
      simp [SecurityManager.on_model_response, aggregate, DebugPolicy, hc,
        DEFAULT_SAFE_DECISION]
  · intro t resp
    by_cases hc : containsTrigger (pyStrDict resp) = true <;>
      simp [SecurityManager.on_tool_response, aggregate, DebugPolicy, hc,
        DEFAULT_SAFE_DECISION]

/-- Witness for C7 with the environment variable unset. -/
theorem C7_default_fallback_witness :
    (initSecurityManager none true (Except.ok ⟨[]⟩)).policies = [DebugPolicy]
    ∧ (((initSecurityManager none true
          (Except.ok ⟨[]⟩)).on_model_call "gemini-2.5-flash" ""
          "hello capsem_block").verdict = .BLOCK
        ↔ containsTrigger "hello capsem_block" = true)
    ∧ ((initSecurityManager none true
          (Except.ok ⟨[]⟩)).on_model_call "gemini-2.5-flash" "" "hello"
        = DEFAULT_SAFE_DECISION) :=
  ⟨(C7_default_fallback none true (Except.ok ⟨[]⟩) (Or.inl rfl)).1,
   (C7_default_fallback none true (Except.ok ⟨[]⟩) (Or.inl rfl)).2.1
      "gemini-2.5-flash" "" "hello capsem_block",
   (C7_default_fallback none true (Except.ok ⟨[]⟩) (Or.inl rfl)).2.2.1
      "gemini-2.5-flash" "" "hello" (by decide)⟩

/-- C8: every Tool object passed into a policy evaluation (on either
endpoint) has a non-empty description, and tool definitions supplying no
description (absent or empty) get the "No description provided"
placeholder when the Agent of the request is constructed. -/
theorem C8_description_nonempty (sm : SecurityManager) (uid model : String)
    (req : GeminiRequest) (oracle : GenResponse) :
    (∀ ev ∈ (generate_content sm uid model req oracle).events,
      ∀ t ∈ evTools ev, t.description ≠ "")
    ∧ (∀ ev ∈ (stream_generate_content sm uid model req).events,
      ∀ t ∈ evTools ev, t.description ≠ "")
    ∧ (∀ t ∈ (create_agent uid req.tools).tools, t.description ≠ "") :=
  ⟨nonstream_events_desc sm uid model req oracle,
   stream_events_desc sm uid model req,
   create_agent_tools_desc uid req.tools⟩

/-- A request whose declared tool supplies an empty description, whose
content carries a functionResponse on its last part, and whose oracle
response carries a function call: every constructed Tool is exercised. -/
def reqC8 : GeminiRequest :=
  ⟨[⟨true, some "user",
     [⟨some "hi", false, none, some ⟨"prev_tool", some [("r", "1")]⟩⟩]⟩],
   [⟨some "function", some ⟨some "mytool", some "", none⟩, none⟩,
    ⟨none, none, some [⟨some "declared_tool", none, none⟩]⟩]⟩

def orC8 : GenResponse :=
  ⟨[⟨some ⟨[⟨none, false, some ⟨"called_tool", some [("x", "2")]⟩, none⟩]⟩⟩]⟩

/-- Witness for C8 at a concrete request that exercises every Tool
construction site, including the empty-description placeholder. -/
theorem C8_description_nonempty_witness :
    (∀ ev ∈ (generate_content defaultManager "u" "m" reqC8 orC8).events,
      ∀ t ∈ evTools ev, t.description ≠ "")
    ∧ (create_agent "u" reqC8.tools).tools
        = [⟨"mytool", "No description provided", defaultParameters⟩] :=
  ⟨(C8_description_nonempty defaultManager "u" "m" reqC8 orC8).1, by decide⟩

/-- C9: if the provider response to a non-streaming request has no
candidates, the handler returns the response immediately with no
`on_tool_call` and no `on_model_response` gate invocation. -/
theorem C9_no_candidates (sm : SecurityManager) (uid model : String)
    (req : GeminiRequest) (oracle : GenResponse)
    (hup : (generate_content sm uid model req oracle).upstreamCalled = true)
    (hc : oracle.candidates = []) :
    (generate_content sm uid model req oracle).result = .ok oracle
    ∧ ∀ ev ∈ (generate_content sm uid model req oracle).events,
        isToolCallEv ev = false ∧ isModelRespEv ev = false := by
  rcases hI : inboundLoop sm req.contents with ⟨evs, det⟩ | ⟨acc⟩
  · rw [run_eq_blocked_inbound sm uid model req oracle evs det hI] at hup
    cases hup
  · by_cases hB : (sm.on_model_call model ""
        (String.intercalate "\n" acc.prompts)).verdict = .BLOCK
    · rw [run_eq_model_block sm uid model req oracle acc hI hB] at hup
      cases hup
    · rw [run_eq_no_candidates sm uid model req oracle acc hI hB hc]
      refine ⟨rfl, ?_⟩
      intro ev hev
      rcases List.mem_append.mp hev with hev | hev
      · have := inbound_events_toolResp sm req.contents _
          (by rw [hI]; exact hev)
        cases ev <;> simp_all [isToolRespEv, isToolCallEv, isModelRespEv]
      · rcases List.mem_singleton.mp hev with rfl
        exact ⟨rfl, rfl⟩

def reqC9 : GeminiRequest :=
  ⟨[⟨true, some "user", [⟨some "tell me a story", false, none, none⟩]⟩], []⟩

/-- Witness for C9 at a concrete benign request and an empty provider
response. -/
theorem C9_no_candidates_witness :
    (generate_content defaultManager "u" "m" reqC9 ⟨[]⟩).upstreamCalled = true
    ∧ (⟨[]⟩ : GenResponse).candidates = []
    ∧ ((generate_content defaultManager "u" "m" reqC9 ⟨[]⟩).result
          = .ok ⟨[]⟩
      ∧ ∀ ev ∈ (generate_content defaultManager "u" "m" reqC9 ⟨[]⟩).events,
          isToolCallEv ev = false ∧ isModelRespEv ev = false) :=
  ⟨by decide, rfl,
   C9_no_candidates defaultManager "u" "m" reqC9 ⟨[]⟩ (by decide) rfl⟩

/-- C10: `DebugPolicy.on_model_response` returns BLOCK exactly when the
trigger token occurs (case-insensitively) in the response text argument;
the thoughts argument never affects the decision, so a response whose
trigger appears only in the thoughts argument is ALLOWed. -/
theorem C10_model_response_ignores_thoughts :
    ∀ resp th : String,
      ((DebugPolicy.on_model_response resp th).verdict = .BLOCK
        ↔ containsTrigger resp = true)
      ∧ (∀ th2, DebugPolicy.on_model_response resp th
          = DebugPolicy.on_model_response resp th2)
      ∧ (containsTrigger resp = false → containsTrigger th = true →
          (DebugPolicy.on_model_response resp th).verdict = .ALLOW) := by
  intro resp th
  by_cases hc : containsTrigger resp = true <;>
    simp [DebugPolicy, hc, DEFAULT_SAFE_DECISION]

/-- Witness for C10 at a concrete response whose trigger occurs only in
the thoughts argument. -/
theorem C10_model_response_ignores_thoughts_witness :
    ((DebugPolicy.on_model_response "all good"
        "let me capsem_block this").verdict = .BLOCK
      ↔ containsTrigger "all good" = true)
    ∧ DebugPolicy.on_model_response "all good" "let me capsem_block this"
        = DebugPolicy.on_model_response "all good" "other thoughts"
    ∧ (DebugPolicy.on_model_response "all good"
        "let me capsem_block this").verdict = .ALLOW :=
  ⟨(C10_model_response_ignores_thoughts "all good"
      "let me capsem_block this").1,
   (C10_model_response_ignores_thoughts "all good"
      "let me capsem_block this").2.1 "other thoughts",
   (C10_model_response_ignores_thoughts "all good"
      "let me capsem_block this").2.2 (by decide) (by decide)⟩

end Capsem

